import Mathlib

/-!
# Keyframe animation core of supersplat

A shallow embedding of the keyframe-track core: the per-track keyframe
stores and their mutation operations (`splat-anim-track.ts`,
`camera-poses.ts`), the cached interpolation state rebuilt from the
timeline parameters, the loop-aware rotation bracket search, the track
resolver and dispatched timeline operations (`anim-track.ts`), and the
pose serialization round trip.

Numbers (JS `number`) are modelled as `ℚ`.  The external `CubicSpline`
primitive and the playcanvas `Quat.slerp` are opaque: splines are
recorded as their construction data and evaluation is an arbitrary
function parameter.  Event firing (`events.fire`) is modelled by each
operation returning the list of structural notifications it emits;
applying an interpolated result to the bound target (`splat.move`,
`camera.setPose`) is the operation's optional effect value.  JS-runtime
failures (a `TypeError` from indexing past the end of an array) surface
as an `Except.error` carrying the store state at the point of the throw.
-/

namespace SuperSplat

/-- 3-component vector (playcanvas `Vec3`), components as `ℚ`. -/
structure Vec3 where
  x : ℚ
  y : ℚ
  z : ℚ
deriving DecidableEq

/-- Quaternion (playcanvas `Quat`), components as `ℚ`. -/
structure Quat where
  x : ℚ
  y : ℚ
  z : ℚ
  w : ℚ
deriving DecidableEq

/-- Transform keyframe record of `splat-anim-track.ts` (`TransformKey`). -/
structure TransformKey where
  frame : ℚ
  position : Vec3
  rotation : Quat
  scale : Vec3
deriving DecidableEq

/-- Camera pose keyframe record of `camera-poses.ts` (`Pose`). -/
structure Pose where
  name : String
  frame : ℚ
  position : Vec3
  target : Vec3
deriving DecidableEq

/-- Structural notifications fired on the event bus by track operations. -/
inductive Notification where
  | keyAdded (frame : ℚ)
  | keyUpdated (frame : ℚ)
  | keyRemoved (frame : ℚ)
  | keyMoved (fromFrame toFrame : ℚ)
  | keysCleared
  | keysLoaded (keys : List ℚ)
  | keysChanged
deriving DecidableEq

/-- Camera pose written to the camera by `events.fire('camera.setPose', pose, 0)`. -/
structure CamPose where
  position : Vec3
  target : Vec3
deriving DecidableEq

/-- Transform written to the bound splat by `splat.move(position, rotation, scale)`. -/
structure SplatMove where
  position : Vec3
  rotation : Quat
  scale : Vec3
deriving DecidableEq

/-- Modelled from the spec: the external Spline Primitive (`CubicSpline`
from `./anim/spline`, not part of this repository's core sources) is an
opaque periodic curve; we record exactly the construction inputs that
`CubicSpline.fromPointsLooping(period, times, points, smoothness)`
receives, and leave evaluation uninterpreted (a function parameter of the
theorems). -/
structure CubicSpline where
  period : ℚ
  times : List ℚ
  points : List ℚ
  smoothness : ℚ
deriving DecidableEq

/-- `CubicSpline.fromPointsLooping` packages its arguments (the fitting
algorithm itself is outside the core; see the spec's non-goal). -/
def CubicSpline.fromPointsLooping (period : ℚ) (times : List ℚ) (points : List ℚ)
    (smoothness : ℚ) : CubicSpline :=
  ⟨period, times, points, smoothness⟩

/-- Type of opaque spline samplers: given a spline, a frame and a
component index, produce the sampled component (`spline.evaluate(frame,
result)` followed by reading `result[i]`). -/
abbrev SplineEval := CubicSpline → ℚ → Nat → ℚ

/-- Type of opaque quaternion interpolators (playcanvas
`Quat.prototype.slerp(lhs, rhs, alpha)`). -/
abbrev Slerp := Quat → Quat → ℚ → Quat

/-- Stable ascending sort by a `ℚ`-valued measure: insertion step.  `a`
is placed before the first element whose measure is not less than
`a`'s. -/
def insertLe (f : α → ℚ) (a : α) : List α → List α
  | [] => [a]
  | b :: bs => if f b < f a then b :: insertLe f a bs else a :: b :: bs

/-- Stable ascending sort by a `ℚ`-valued measure.  Models the JS
`Array.prototype.sort((a, b) => a.frame - b.frame)` call, which
ES2019 guarantees to be a stable sort ordered by the comparator. -/
def sortByFrame (f : α → ℚ) : List α → List α
  | [] => []
  | a :: as => insertLe f a (sortByFrame f as)

/-- `List.map` with the element index (used for the legacy synthetic
frame `index * fps` during pose import). -/
def mapWithIndexFrom (f : Nat → α → β) (i : Nat) : List α → List β
  | [] => []
  | a :: as => f i a :: mapWithIndexFrom f (i + 1) as

/-- JS `array.map((x, index) => ...)`. -/
def mapWithIndex (f : Nat → α → β) (l : List α) : List β :=
  mapWithIndexFrom f 0 l

/-! ## Camera animation track (`camera-poses.ts`) -/

/-- State of `CameraAnimTrack`: the keyframe store `poses` in insertion
order, and the cached interpolation state.  In the source the cache is
the `onTimelineChange` closure, which captures the spline built by the
last `rebuildSpline` run (or `null` when fewer than two active poses). -/
structure CameraAnimTrack where
  poses : List Pose
  onTimelineChange : Option CubicSpline
deriving DecidableEq

/-- `get keys()`: the store's frames in store (insertion) order. -/
def CameraAnimTrack.keys (t : CameraAnimTrack) : List ℚ :=
  t.poses.map (fun p => p.frame)

/-- `rebuildSpline()`: filter the store to active poses (`frame <
duration`), sort ascending by frame, and rebuild the cached 6-component
looping spline when more than one pose remains (otherwise drop the
cache).  `duration` is `events.invoke('timeline.frames')` and
`smoothness` is `events.invoke('timeline.smoothness')` read at rebuild
time. -/
def CameraAnimTrack.rebuildSpline (duration smoothness : ℚ) (t : CameraAnimTrack) :
    CameraAnimTrack :=
  let orderedPoses := sortByFrame (fun p => p.frame)
    (t.poses.filter (fun a => a.frame < duration))
  let times := orderedPoses.map (fun p => p.frame)
  let points := orderedPoses.flatMap (fun p =>
    [p.position.x, p.position.y, p.position.z, p.target.x, p.target.y, p.target.z])
  if orderedPoses.length > 1 then
    let spline := CubicSpline.fromPointsLooping duration times points smoothness
    { t with onTimelineChange := some spline }
  else
    { t with onTimelineChange := none }

/-- `addKey(frame)`: `getPose` is the result of
`events.invoke('camera.getPose')` (the state provider; `none` models a
falsy result, on which the call is a no-op).  An existing key at `frame`
is overwritten in place (`keyUpdated`), otherwise the new pose is
appended (`keyAdded`). -/
def CameraAnimTrack.addKey (duration smoothness : ℚ) (getPose : Option (Vec3 × Vec3))
    (t : CameraAnimTrack) (frame : ℚ) : CameraAnimTrack × List Notification :=
  match getPose with
  | none => (t, [])
  | some (pos, tgt) =>
    let newPose : Pose :=
      { name := "camera_" ++ toString t.poses.length
        frame := frame
        position := pos
        target := tgt }
    match t.poses.findIdx? (fun p => p.frame == frame) with
    | none =>
      (CameraAnimTrack.rebuildSpline duration smoothness
        { t with poses := t.poses ++ [newPose] },
       [Notification.keyAdded frame])
    | some existingIndex =>
      (CameraAnimTrack.rebuildSpline duration smoothness
        { t with poses := t.poses.set existingIndex newPose },
       [Notification.keyUpdated frame])

/-- `removeKey(frame)`: delete the pose at `frame` if present
(`keyRemoved`), else no-op. -/
def CameraAnimTrack.removeKey (duration smoothness : ℚ) (t : CameraAnimTrack)
    (frame : ℚ) : CameraAnimTrack × List Notification :=
  match t.poses.findIdx? (fun p => p.frame == frame) with
  | none => (t, [])
  | some index =>
    (CameraAnimTrack.rebuildSpline duration smoothness
      { t with poses := t.poses.eraseIdx index },
     [Notification.keyRemoved frame])

/-- `moveKey(fromFrame, toFrame)`.  Mirrors the source exactly: the
source index is computed first, then any occupant of `toFrame` is
spliced out, and then `this.poses[index].frame = toFrame` runs against
the *spliced* array with the *stale* index.  When the occupant preceded
the source record, the stale index designates the element after the
source — or no element at all when the source was last, in which case JS
throws a `TypeError` (`Except.error`, carrying the already-spliced
store). -/
def CameraAnimTrack.moveKey (duration smoothness : ℚ) (t : CameraAnimTrack)
    (fromFrame toFrame : ℚ) :
    Except CameraAnimTrack (CameraAnimTrack × List Notification) :=
  if fromFrame == toFrame then Except.ok (t, []) else
  match t.poses.findIdx? (fun p => p.frame == fromFrame) with
  | none => Except.ok (t, [])
  | some index =>
    let ps := match t.poses.findIdx? (fun p => p.frame == toFrame) with
      | some toIndex => t.poses.eraseIdx toIndex
      | none => t.poses
    match ps[index]? with
    | none => Except.error { t with poses := ps }
    | some p =>
      Except.ok
        (CameraAnimTrack.rebuildSpline duration smoothness
          { t with poses := ps.set index { p with frame := toFrame } },
         [Notification.keyMoved fromFrame toFrame])

/-- `evaluate(frame)`: invoke the cached closure if present.  The
closure samples the spline (six components: camera position then look
target) and writes the pose to the camera; the store and cache are
untouched and no structural notification fires. -/
def CameraAnimTrack.evaluate (se : SplineEval) (t : CameraAnimTrack) (frame : ℚ) :
    CameraAnimTrack × List Notification × Option CamPose :=
  match t.onTimelineChange with
  | none => (t, [], none)
  | some spline =>
    (t, [],
     some { position := ⟨se spline frame 0, se spline frame 1, se spline frame 2⟩
            target := ⟨se spline frame 3, se spline frame 4, se spline frame 5⟩ })

/-- `clear()`: empty the store, drop the cache, fire `keysCleared`. -/
def CameraAnimTrack.clear (t : CameraAnimTrack) :
    CameraAnimTrack × List Notification :=
  let _ := t
  (⟨[], none⟩, [Notification.keysCleared])

/-- `addPose(pose)`: update in place if the frame exists, else append;
rebuild; no notification fires.  (The source's `pose.frame ===
undefined` guard is vacuous here: the embedded `Pose` always carries a
frame.) -/
def CameraAnimTrack.addPose (duration smoothness : ℚ) (t : CameraAnimTrack)
    (pose : Pose) : CameraAnimTrack :=
  match t.poses.findIdx? (fun p => p.frame == pose.frame) with
  | some idx =>
    CameraAnimTrack.rebuildSpline duration smoothness
      { t with poses := t.poses.set idx pose }
  | none =>
    CameraAnimTrack.rebuildSpline duration smoothness
      { t with poses := t.poses ++ [pose] }

/-- `loadPoses(posesData)`: replace the store wholesale, rebuild, fire
`keysLoaded` with the resulting frame list. -/
def CameraAnimTrack.loadPoses (duration smoothness : ℚ) (t : CameraAnimTrack)
    (posesData : List Pose) : CameraAnimTrack × List Notification :=
  let t1 := CameraAnimTrack.rebuildSpline duration smoothness
    { t with poses := posesData }
  (t1, [Notification.keysLoaded (CameraAnimTrack.keys t1)])

/-- `getPoses()` (serialization accessor). -/
def CameraAnimTrack.getPoses (t : CameraAnimTrack) : List Pose :=
  t.poses

/-! ## Splat (transform) animation track (`splat-anim-track.ts`) -/

/-- Interpolation state captured by `SplatAnimTrack`'s
`onTimelineChange` closure after a successful rebuild: the two splines,
the chronological (filtered, sorted) key list used for the rotation
slerp, and the `duration` read at rebuild time (referenced by the
closure's wrap-around arithmetic). -/
structure SplatInterp where
  positionSpline : CubicSpline
  scaleSpline : CubicSpline
  rotationKeys : List TransformKey
  duration : ℚ
deriving DecidableEq

/-- State of `SplatAnimTrack`: keyframe store in insertion order plus
the cached interpolation state (`null` when the last rebuild found
fewer than two active keyframes, or after `clear()`). -/
structure SplatAnimTrack where
  keyframes : List TransformKey
  onTimelineChange : Option SplatInterp
deriving DecidableEq

/-- `get keys()`: frames in store (insertion) order. -/
def SplatAnimTrack.keys (t : SplatAnimTrack) : List ℚ :=
  t.keyframes.map (fun k => k.frame)

/-- `rebuildSplines()`: filter to active keys (`frame < duration`),
sort ascending by frame; with fewer than two active keys the cache is
dropped, otherwise position and scale splines are fit and the
chronological key list retained for the rotation slerp. -/
def SplatAnimTrack.rebuildSplines (duration smoothness : ℚ) (t : SplatAnimTrack) :
    SplatAnimTrack :=
  let orderedKeys := sortByFrame (fun k => k.frame)
    (t.keyframes.filter (fun k => k.frame < duration))
  if orderedKeys.length < 2 then
    { t with onTimelineChange := none }
  else
    let times := orderedKeys.map (fun k => k.frame)
    let posPoints := orderedKeys.flatMap (fun k =>
      [k.position.x, k.position.y, k.position.z])
    let scalePoints := orderedKeys.flatMap (fun k =>
      [k.scale.x, k.scale.y, k.scale.z])
    let interp : SplatInterp :=
      { positionSpline := CubicSpline.fromPointsLooping duration times posPoints smoothness
        scaleSpline := CubicSpline.fromPointsLooping duration times scalePoints smoothness
        rotationKeys := orderedKeys
        duration := duration }
    { t with onTimelineChange := some interp }

/-- `addKey(frame)`: `transform` is the bound entity's current local
position/rotation/scale (`entity.getLocalPosition()` etc., always
available).  Overwrite in place if `frame` exists (`keyUpdated`), else
append (`keyAdded`). -/
def SplatAnimTrack.addKey (duration smoothness : ℚ) (transform : Vec3 × Quat × Vec3)
    (t : SplatAnimTrack) (frame : ℚ) : SplatAnimTrack × List Notification :=
  let newKey : TransformKey :=
    { frame := frame
      position := transform.1
      rotation := transform.2.1
      scale := transform.2.2 }
  match t.keyframes.findIdx? (fun k => k.frame == frame) with
  | none =>
    (SplatAnimTrack.rebuildSplines duration smoothness
      { t with keyframes := t.keyframes ++ [newKey] },
     [Notification.keyAdded frame])
  | some existingIndex =>
    (SplatAnimTrack.rebuildSplines duration smoothness
      { t with keyframes := t.keyframes.set existingIndex newKey },
     [Notification.keyUpdated frame])

/-- `removeKey(frame)`. -/
def SplatAnimTrack.removeKey (duration smoothness : ℚ) (t : SplatAnimTrack)
    (frame : ℚ) : SplatAnimTrack × List Notification :=
  match t.keyframes.findIdx? (fun k => k.frame == frame) with
  | none => (t, [])
  | some index =>
    (SplatAnimTrack.rebuildSplines duration smoothness
      { t with keyframes := t.keyframes.eraseIdx index },
     [Notification.keyRemoved frame])

/-- `moveKey(fromFrame, toFrame)`: same stale-index splice sequence as
the camera track (see `CameraAnimTrack.moveKey`). -/
def SplatAnimTrack.moveKey (duration smoothness : ℚ) (t : SplatAnimTrack)
    (fromFrame toFrame : ℚ) :
    Except SplatAnimTrack (SplatAnimTrack × List Notification) :=
  if fromFrame == toFrame then Except.ok (t, []) else
  match t.keyframes.findIdx? (fun k => k.frame == fromFrame) with
  | none => Except.ok (t, [])
  | some index =>
    let ks := match t.keyframes.findIdx? (fun k => k.frame == toFrame) with
      | some toIndex => t.keyframes.eraseIdx toIndex
      | none => t.keyframes
    match ks[index]? with
    | none => Except.error { t with keyframes := ks }
    | some k =>
      Except.ok
        (SplatAnimTrack.rebuildSplines duration smoothness
          { t with keyframes := ks.set index { k with frame := toFrame } },
         [Notification.keyMoved fromFrame toFrame])

/-- The closure's rotation-bracket scan: find the first key whose frame
exceeds the query frame; it becomes `next` and its predecessor (or the
last key, when it is the list head) becomes `prev`; when no key exceeds
the query frame, wrap with `prev` = last key, `next` = first key.
`none` only when the key list is empty, which rebuild never produces
(it requires at least two keys). -/
def bracketKeys (rk : List TransformKey) (frame : ℚ) :
    Option (TransformKey × TransformKey) :=
  match rk.findIdx? (fun k => frame < k.frame) with
  | some i =>
    if i = 0 then
      match rk.getLast?, rk[0]? with
      | some p, some n => some (p, n)
      | _, _ => none
    else
      match rk[i - 1]?, rk[i]? with
      | some p, some n => some (p, n)
      | _, _ => none
  | none =>
    match rk.getLast?, rk.head? with
    | some p, some n => some (p, n)
    | _, _ => none

/-- Body of the `onTimelineChange` closure built by `rebuildSplines`:
sample the position and scale splines, bracket the query frame in the
chronological key list, compute the clamped interpolation factor with
loop wrap-around, and slerp the bracketing rotations. -/
def SplatInterp.run (se : SplineEval) (slerp : Slerp) (st : SplatInterp)
    (frame : ℚ) : Option SplatMove :=
  let position : Vec3 :=
    ⟨se st.positionSpline frame 0, se st.positionSpline frame 1, se st.positionSpline frame 2⟩
  let scale : Vec3 :=
    ⟨se st.scaleSpline frame 0, se st.scaleSpline frame 1, se st.scaleSpline frame 2⟩
  match bracketKeys st.rotationKeys frame with
  | none => none
  | some (prevKey, nextKey) =>
    let prevFrame := prevKey.frame
    let nextFrame0 := nextKey.frame
    let nextFrame := if nextFrame0 ≤ prevFrame then nextFrame0 + st.duration else nextFrame0
    let t0 :=
      if frame < prevFrame then (frame + st.duration - prevFrame) / (nextFrame - prevFrame)
      else (frame - prevFrame) / (nextFrame - prevFrame)
    let t1 := max 0 (min 1 t0)
    some { position := position
           rotation := slerp prevKey.rotation nextKey.rotation t1
           scale := scale }

/-- `evaluate(frame)`: run the cached closure if present; store, cache
and notifications are untouched, the only product is the transform
applied to the bound splat via `splat.move`. -/
def SplatAnimTrack.evaluate (se : SplineEval) (slerp : Slerp) (t : SplatAnimTrack)
    (frame : ℚ) : SplatAnimTrack × List Notification × Option SplatMove :=
  match t.onTimelineChange with
  | none => (t, [], none)
  | some interp => (t, [], SplatInterp.run se slerp interp frame)

/-- `clear()`. -/
def SplatAnimTrack.clear (t : SplatAnimTrack) :
    SplatAnimTrack × List Notification :=
  let _ := t
  (⟨[], none⟩, [Notification.keysCleared])

/-- `getKeyframes()` (serialization accessor). -/
def SplatAnimTrack.getKeyframes (t : SplatAnimTrack) : List TransformKey :=
  t.keyframes

/-- `loadKeyframes(keyframesData)`: replace the store wholesale (the
source copies each record into fresh `Vec3`/`Quat` objects, which is the
identity in a pure model), rebuild, fire `keysLoaded`. -/
def SplatAnimTrack.loadKeyframes (duration smoothness : ℚ) (t : SplatAnimTrack)
    (keyframesData : List TransformKey) : SplatAnimTrack × List Notification :=
  let t1 := SplatAnimTrack.rebuildSplines duration smoothness
    { t with keyframes := keyframesData }
  (t1, [Notification.keysLoaded (SplatAnimTrack.keys t1)])

/-! ## Track resolver and dispatched operations (`anim-track.ts`,
`selection.ts`) -/

/-- The current selection (`Selectable`): the camera, a splat (whose
optional `animTrack` field realises the `Animatable` capability used by
`isAnimatable`), or — inside an `Option` — nothing. -/
inductive Selectable where
  | camera
  | splat (animTrack : Option SplatAnimTrack)
deriving DecidableEq

/-- World state seen by the dispatched track events: the selection and
the camera's singleton pose track (`events.invoke('camera.animTrack')`).
A selected splat's own track lives inside the `Selectable`. -/
structure World where
  selection : Option Selectable
  cameraTrack : CameraAnimTrack
deriving DecidableEq

/-- Timeline/provider environment read by the dispatched operations:
`timeline.frames`, `timeline.smoothness`, `timeline.frame` (the cursor),
`camera.getPose`, and the bound entity's local transform. -/
structure Env where
  duration : ℚ
  smoothness : ℚ
  cursorFrame : ℚ
  cameraPose : Option (Vec3 × Vec3)
  splatTransform : Vec3 × Quat × Vec3

/-- `selection.isCamera`: `selection !== null && selection.type ===
ElementType.camera`. -/
def selectionIsCamera (sel : Option Selectable) : Bool :=
  match sel with
  | some Selectable.camera => true
  | _ => false

/-- `getActiveTrack()`: camera selected → the camera's pose track;
otherwise a selected animatable's track (`isAnimatable` requires a
non-null `animTrack`); otherwise none. -/
def getActiveTrack (w : World) : Option (CameraAnimTrack ⊕ SplatAnimTrack) :=
  if selectionIsCamera w.selection then some (Sum.inl w.cameraTrack)
  else
    match w.selection with
    | some (Selectable.splat (some tr)) => some (Sum.inr tr)
    | _ => none

/-- Dispatched `track.keys` query: the active track's keys, or `[]`. -/
def trackKeys (w : World) : List ℚ :=
  match getActiveTrack w with
  | none => []
  | some (Sum.inl cam) => CameraAnimTrack.keys cam
  | some (Sum.inr tr) => SplatAnimTrack.keys tr

/-- Dispatched `track.addKey` event: no-op without an active track; the
frame argument defaults to the timeline cursor (`frame ??
events.invoke('timeline.frame')`). -/
def dispatchAddKey (env : Env) (w : World) (frame? : Option ℚ) :
    World × List Notification :=
  if selectionIsCamera w.selection then
    let keyFrame := frame?.getD env.cursorFrame
    let (t, ns) := CameraAnimTrack.addKey env.duration env.smoothness env.cameraPose
      w.cameraTrack keyFrame
    ({ w with cameraTrack := t }, ns)
  else
    match w.selection with
    | some (Selectable.splat (some tr)) =>
      let keyFrame := frame?.getD env.cursorFrame
      let (t, ns) := SplatAnimTrack.addKey env.duration env.smoothness env.splatTransform
        tr keyFrame
      ({ w with selection := some (Selectable.splat (some t)) }, ns)
    | _ => (w, [])

/-- Dispatched `track.removeKey` event. -/
def dispatchRemoveKey (env : Env) (w : World) (frame? : Option ℚ) :
    World × List Notification :=
  if selectionIsCamera w.selection then
    let keyFrame := frame?.getD env.cursorFrame
    let (t, ns) := CameraAnimTrack.removeKey env.duration env.smoothness
      w.cameraTrack keyFrame
    ({ w with cameraTrack := t }, ns)
  else
    match w.selection with
    | some (Selectable.splat (some tr)) =>
      let keyFrame := frame?.getD env.cursorFrame
      let (t, ns) := SplatAnimTrack.removeKey env.duration env.smoothness tr keyFrame
      ({ w with selection := some (Selectable.splat (some t)) }, ns)
    | _ => (w, [])

/-- Dispatched `track.moveKey` event (propagates the `moveKey`
`TypeError` when the underlying track operation throws). -/
def dispatchMoveKey (env : Env) (w : World) (fromFrame toFrame : ℚ) :
    Except World (World × List Notification) :=
  if selectionIsCamera w.selection then
    match CameraAnimTrack.moveKey env.duration env.smoothness w.cameraTrack
      fromFrame toFrame with
    | Except.error t => Except.error { w with cameraTrack := t }
    | Except.ok (t, ns) => Except.ok ({ w with cameraTrack := t }, ns)
  else
    match w.selection with
    | some (Selectable.splat (some tr)) =>
      match SplatAnimTrack.moveKey env.duration env.smoothness tr fromFrame toFrame with
      | Except.error t =>
        Except.error { w with selection := some (Selectable.splat (some t)) }
      | Except.ok (t, ns) =>
        Except.ok ({ w with selection := some (Selectable.splat (some t)) }, ns)
    | _ => Except.ok (w, [])

/-! ## Timeline-parameter-change handlers (`registerCameraPosesEvents`) -/

/-- The `events.on('timeline.frames', ...)` handler: despite its
comment ("Trigger rebuild by evaluating at current frame"), it only
calls `track.evaluate(events.invoke('timeline.frame'))` — which invokes
the *cached* closure — and then fires `track.keysChanged`.  No code path
reaches the private `rebuildSpline`. -/
def onTimelineFramesChanged (se : SplineEval) (currentFrame : ℚ)
    (track : CameraAnimTrack) :
    CameraAnimTrack × List Notification × Option CamPose :=
  let (t, ns, eff) := CameraAnimTrack.evaluate se track currentFrame
  (t, ns ++ [Notification.keysChanged], eff)

/-- The `events.on('timeline.smoothness', ...)` handler: evaluate at the
current frame, nothing else. -/
def onTimelineSmoothnessChanged (se : SplineEval) (currentFrame : ℚ)
    (track : CameraAnimTrack) :
    CameraAnimTrack × List Notification × Option CamPose :=
  CameraAnimTrack.evaluate se track currentFrame

/-! ## Pose serialization (`docSerialize.poseSets` /
`docDeserialize.poseSets`) -/

/-- One serialized pose record: `{name, frame, position[3], target[3]}`.
`frame` is optional in the document to model legacy data lacking
explicit frames. -/
structure DocPose where
  name : String
  frame : Option ℚ
  position : List ℚ
  target : List ℚ
deriving DecidableEq

/-- One serialized pose set: `{name, poses}`. -/
structure PoseSet where
  name : String
  poses : List DocPose
deriving DecidableEq

/-- `pack3 = (v) => [v.x, v.y, v.z]`. -/
def pack3 (v : Vec3) : List ℚ :=
  [v.x, v.y, v.z]

/-- `new Vec3(array)` on a serialized 3-component array. -/
def vec3OfList (l : List ℚ) : Vec3 :=
  ⟨l.getD 0 0, l.getD 1 0, l.getD 2 0⟩

/-- `docSerialize.poseSets`: empty store → `[]`; otherwise a single set
named `set0` listing every stored pose (not filtered by duration) in
store order. -/
def docSerializePoseSets (t : CameraAnimTrack) : List PoseSet :=
  let poses := CameraAnimTrack.getPoses t
  if poses.length = 0 then []
  else
    [{ name := "set0"
       poses := poses.map (fun pose =>
         { name := pose.name
           frame := some pose.frame
           position := pack3 pose.position
           target := pack3 pose.target }) }]

/-- `docDeserialize.poseSets`: empty input → return (the track is left
untouched); otherwise load the first set's poses, backfilling a missing
frame with `index * fps` (`timeline.frameRate`). -/
def docDeserializePoseSets (fps duration smoothness : ℚ) (poseSets : List PoseSet)
    (t : CameraAnimTrack) : CameraAnimTrack × List Notification :=
  match poseSets with
  | [] => (t, [])
  | ps0 :: _ =>
    let loadedPoses := mapWithIndex (fun index docPose =>
      { name := docPose.name
        frame := docPose.frame.getD ((index : ℚ) * fps)
        position := vec3OfList docPose.position
        target := vec3OfList docPose.target : Pose }) ps0.poses
    CameraAnimTrack.loadPoses duration smoothness t loadedPoses

/-! ## Reachable track states

One step of the camera track's public mutation interface, with
arbitrary timeline parameters and provider results at each call.  Bulk
loads are restricted to payloads whose frames are pairwise distinct —
`loadPoses` copies its input verbatim, so a duplicated input frame lands
duplicated in the store (see the `C4` counterexample). -/
inductive CamStep : CameraAnimTrack → CameraAnimTrack → Prop where
  | addKey (d s : ℚ) (gp : Option (Vec3 × Vec3)) (f : ℚ) (t : CameraAnimTrack) :
      CamStep t (CameraAnimTrack.addKey d s gp t f).1
  | removeKey (d s f : ℚ) (t : CameraAnimTrack) :
      CamStep t (CameraAnimTrack.removeKey d s t f).1
  | moveKeyOk (d s a b : ℚ) (t t' : CameraAnimTrack) (ns : List Notification)
      (h : CameraAnimTrack.moveKey d s t a b = Except.ok (t', ns)) : CamStep t t'
  | moveKeyErr (d s a b : ℚ) (t t' : CameraAnimTrack)
      (h : CameraAnimTrack.moveKey d s t a b = Except.error t') : CamStep t t'
  | clear (t : CameraAnimTrack) : CamStep t (CameraAnimTrack.clear t).1
  | addPose (d s : ℚ) (p : Pose) (t : CameraAnimTrack) :
      CamStep t (CameraAnimTrack.addPose d s t p)
  | loadPoses (d s : ℚ) (data : List Pose) (t : CameraAnimTrack)
      (h : (data.map Pose.frame).Nodup) :
      CamStep t (CameraAnimTrack.loadPoses d s t data).1

/-- The camera track as constructed (`new CameraAnimTrack(events)`). -/
def camInit : CameraAnimTrack := ⟨[], none⟩

/-- Camera track states reachable from the freshly constructed track. -/
def CamReachable (t : CameraAnimTrack) : Prop :=
  Relation.ReflTransGen CamStep camInit t

/-- One step of the splat track's public mutation interface (the bound
entity's transform is always available as the state provider). -/
inductive SplatStep : SplatAnimTrack → SplatAnimTrack → Prop where
  | addKey (d s : ℚ) (tr : Vec3 × Quat × Vec3) (f : ℚ) (t : SplatAnimTrack) :
      SplatStep t (SplatAnimTrack.addKey d s tr t f).1
  | removeKey (d s f : ℚ) (t : SplatAnimTrack) :
      SplatStep t (SplatAnimTrack.removeKey d s t f).1
  | moveKeyOk (d s a b : ℚ) (t t' : SplatAnimTrack) (ns : List Notification)
      (h : SplatAnimTrack.moveKey d s t a b = Except.ok (t', ns)) : SplatStep t t'
  | moveKeyErr (d s a b : ℚ) (t t' : SplatAnimTrack)
      (h : SplatAnimTrack.moveKey d s t a b = Except.error t') : SplatStep t t'
  | clear (t : SplatAnimTrack) : SplatStep t (SplatAnimTrack.clear t).1
  | loadKeyframes (d s : ℚ) (data : List TransformKey) (t : SplatAnimTrack)
      (h : (data.map TransformKey.frame).Nodup) :
      SplatStep t (SplatAnimTrack.loadKeyframes d s t data).1

/-- The splat track as constructed. -/
def splatInit : SplatAnimTrack := ⟨[], none⟩

/-- Splat track states reachable from the freshly constructed track. -/
def SplatReachable (t : SplatAnimTrack) : Prop :=
  Relation.ReflTransGen SplatStep splatInit t

/-! ## Concrete fixtures for the counterexample evaluations -/

/-- Zero vector. -/
def zeroV : Vec3 := ⟨0, 0, 0⟩

/-- Identity quaternion. -/
def idQ : Quat := ⟨0, 0, 0, 1⟩

/-- A pose named `nm` at frame `f` with a distinguishing position. -/
def samplePose (nm : String) (f px : ℚ) : Pose :=
  ⟨nm, f, ⟨px, 0, 0⟩, zeroV⟩

/-- A transform keyframe at frame `f` with a distinguishing position. -/
def sampleKey (f px : ℚ) : TransformKey :=
  ⟨f, ⟨px, 0, 0⟩, idQ, ⟨1, 1, 1⟩⟩

/-- A spline sampler that returns `0` everywhere (any sampler works:
the counterexamples only need some concrete one). -/
def zeroEval : SplineEval := fun _ _ _ => 0

/-- A concrete interpolator agreeing with slerp at `alpha = 0`. -/
def stepSlerp : Slerp := fun a b t => if t == 0 then a else b

/-- A concrete environment for dispatch counterexamples. -/
def sampleEnv : Env :=
  ⟨20, 1, 0, none, (zeroV, idQ, ⟨1, 1, 1⟩)⟩

/-- The track state after a possibly-throwing operation: the state the
operation returned, or the state it left behind at the point of the
throw. -/
def exceptState : Except γ (γ × List Notification) → γ
  | Except.error t => t
  | Except.ok (t, _) => t

/-! # Theorems -/

/-! ## Shared helper lemmas -/

theorem length_insertLe (f : α → ℚ) (a : α) (l : List α) :
    (insertLe f a l).length = l.length + 1 := by
  induction l with
  | nil => rfl
  | cons b bs ih =>
    simp only [insertLe]
    split
    · simp [ih]
    · simp

theorem length_sortByFrame (f : α → ℚ) (l : List α) :
    (sortByFrame f l).length = l.length := by
  induction l with
  | nil => rfl
  | cons a as ih => simp [sortByFrame, length_insertLe, ih]

theorem poses_rebuildSpline (d s : ℚ) (t : CameraAnimTrack) :
    (CameraAnimTrack.rebuildSpline d s t).poses = t.poses := by
  simp only [CameraAnimTrack.rebuildSpline]
  split <;> rfl

theorem keyframes_rebuildSplines (d s : ℚ) (t : SplatAnimTrack) :
    (SplatAnimTrack.rebuildSplines d s t).keyframes = t.keyframes := by
  simp only [SplatAnimTrack.rebuildSplines]
  split <;> rfl

theorem mapWithIndexFrom_map (f : Nat → β → γ) (g : α → β) (i : Nat) (l : List α) :
    mapWithIndexFrom f i (l.map g) = mapWithIndexFrom (fun n a => f n (g a)) i l := by
  induction l generalizing i with
  | nil => rfl
  | cons a as ih => simp [mapWithIndexFrom, ih]

theorem mapWithIndexFrom_id (f : Nat → α → α) (l : List α)
    (hf : ∀ n a, a ∈ l → f n a = a) (i : Nat) :
    mapWithIndexFrom f i l = l := by
  induction l generalizing i with
  | nil => rfl
  | cons a as ih =>
    simp only [mapWithIndexFrom]
    rw [hf i a (by simp), ih (fun n b hb => hf n b (by simp [hb])) (i + 1)]

theorem vec3OfList_pack3 (v : Vec3) : vec3OfList (pack3 v) = v := by
  cases v; rfl

theorem set_getElem?_self : ∀ (l : List α) (i : Nat) (a : α),
    l[i]? = some a → l.set i a = l
  | [], i, a, h => by simp at h
  | x :: xs, 0, a, h => by
    simp only [List.getElem?_cons_zero, Option.some.injEq] at h
    simp [List.set, h]
  | x :: xs, i + 1, a, h => by
    simp only [List.getElem?_cons_succ] at h
    simp [List.set, set_getElem?_self xs i a h]

theorem map_eraseIdx (f : α → β) : ∀ (l : List α) (i : Nat),
    (l.eraseIdx i).map f = (l.map f).eraseIdx i
  | [], _ => by simp
  | _ :: _, 0 => by simp
  | x :: xs, i + 1 => by
    simp [List.eraseIdx, map_eraseIdx f xs i]

theorem not_mem_eraseIdx_of_nodup : ∀ (l : List α) (i : Nat) (a : α),
    l.Nodup → l[i]? = some a → a ∉ l.eraseIdx i
  | [], i, a, _, h => by simp at h
  | x :: xs, 0, a, hn, h => by
    simp only [List.getElem?_cons_zero, Option.some.injEq] at h
    subst h
    simpa [List.eraseIdx] using (List.nodup_cons.mp hn).1
  | x :: xs, i + 1, a, hn, h => by
    simp only [List.getElem?_cons_succ] at h
    have hx : x ∉ xs := (List.nodup_cons.mp hn).1
    have hmem : a ∈ xs := List.getElem?_mem h
    have hne : a ≠ x := fun he => hx (he ▸ hmem)
    simpa [List.eraseIdx] using
      ⟨hne, not_mem_eraseIdx_of_nodup xs i a (List.nodup_cons.mp hn).2 h⟩

/-- The first index found by the store lookup `findIdx?(k => k.frame ==
f)` holds frame `f` in the frame list. -/
theorem frames_findIdx?_some (fr : α → ℚ) {l : List α} {x : ℚ} {i : Nat}
    (h : l.findIdx? (fun a => fr a == x) = some i) :
    (l.map fr)[i]? = some x := by
  obtain ⟨hlt, hbeq, -⟩ := List.findIdx?_eq_some_iff_getElem.mp h
  have : fr l[i] = x := by simpa using hbeq
  rw [List.getElem?_map, List.getElem?_eq_getElem hlt]
  simp [this]

/-- A failed store lookup means the frame is nowhere in the store. -/
theorem frames_findIdx?_none (fr : α → ℚ) {l : List α} {x : ℚ}
    (h : l.findIdx? (fun a => fr a == x) = none) :
    x ∉ l.map fr := by
  intro hmem
  obtain ⟨a, ha, rfl⟩ := List.mem_map.mp hmem
  have := List.findIdx?_eq_none_iff.mp h a ha
  simp at this

/-- Appending a record with a fresh frame preserves frame uniqueness. -/
theorem nodup_frames_append (fr : α → ℚ) {l : List α} {p : α}
    (h : (l.map fr).Nodup) (hnot : fr p ∉ l.map fr) :
    ((l ++ [p]).map fr).Nodup := by
  rw [List.map_append]
  exact List.nodup_append.mpr ⟨h, by simp, by
    intro a ha hb
    simp only [List.map_cons, List.map_nil, List.mem_cons, List.not_mem_nil,
      or_false] at hb
    exact hnot (hb ▸ ha)⟩

/-- Overwriting the record at `i` with one carrying the same frame
leaves the frame list unchanged. -/
theorem frames_set_same (fr : α → ℚ) {l : List α} {i : Nat} {p : α}
    (hidx : (l.map fr)[i]? = some (fr p)) :
    (l.set i p).map fr = l.map fr := by
  rw [List.map_set]
  exact set_getElem?_self _ i _ hidx

/-- A record with the sought frame appended to a store lacking it is
found exactly at the old length. -/
theorem findIdx?_append_fresh (fr : α → ℚ) {l : List α} {p : α} {f : ℚ}
    (hnone : l.findIdx? (fun a => fr a == f) = none) (hp : fr p = f) :
    (l ++ [p]).findIdx? (fun a => fr a == f) = some l.length := by
  rw [List.findIdx?_append, hnone]
  simp [List.findIdx?_cons, hp]

/-- Overwriting the record at the found index with one carrying the same
frame leaves the lookup result unchanged. -/
theorem findIdx?_set_same (fr : α → ℚ) {l : List α} {i : Nat} {p : α} {f : ℚ}
    (hidx : l.findIdx? (fun a => fr a == f) = some i) (hp : fr p = f) :
    (l.set i p).findIdx? (fun a => fr a == f) = some i := by
  obtain ⟨hlt, _, hmin⟩ := List.findIdx?_eq_some_iff_getElem.mp hidx
  apply List.findIdx?_eq_some_iff_getElem.mpr
  refine ⟨by simpa using hlt, ?_, ?_⟩
  · rw [List.getElem_set_self]
    simp [hp]
  · intro j hj
    rw [List.getElem_set_ne (by omega)]
    exact hmin j hj

/-- Store produced by `addKey` with an available provider: append when
the frame is absent, overwrite in place when present. -/
theorem cam_addKey_poses (d s : ℚ) (pos tgt : Vec3) (t : CameraAnimTrack) (f : ℚ) :
    (CameraAnimTrack.addKey d s (some (pos, tgt)) t f).1.poses
      = match t.poses.findIdx? (fun p => p.frame == f) with
        | none => t.poses ++ [⟨"camera_" ++ toString t.poses.length, f, pos, tgt⟩]
        | some i => t.poses.set i ⟨"camera_" ++ toString t.poses.length, f, pos, tgt⟩ := by
  cases hidx : t.poses.findIdx? (fun p => p.frame == f) with
  | none => simp [CameraAnimTrack.addKey, hidx, poses_rebuildSpline]
  | some i => simp [CameraAnimTrack.addKey, hidx, poses_rebuildSpline]

/-- Notifications fired by `addKey` with an available provider:
`keyAdded` on append, `keyUpdated` on overwrite. -/
theorem cam_addKey_events (d s : ℚ) (pos tgt : Vec3) (t : CameraAnimTrack) (f : ℚ) :
    (CameraAnimTrack.addKey d s (some (pos, tgt)) t f).2
      = match t.poses.findIdx? (fun p => p.frame == f) with
        | none => [Notification.keyAdded f]
        | some _ => [Notification.keyUpdated f] := by
  cases hidx : t.poses.findIdx? (fun p => p.frame == f) with
  | none => simp [CameraAnimTrack.addKey, hidx]
  | some i => simp [CameraAnimTrack.addKey, hidx]

/-- Calling the camera track's `addKey(f)` twice with an available
provider, from a store holding at most one keyframe at `f`: afterwards
exactly one keyframe sits at `f`; the second call kept length and frame
order and fired `keyUpdated`; and when `f` was absent the first call
appended and fired `keyAdded`. -/
theorem cam_addKey_twice (d1 s1 d2 s2 : ℚ) (p1 t1 p2 t2 : Vec3)
    (t : CameraAnimTrack) (f : ℚ)
    (hone : t.poses.countP (fun p => p.frame == f) ≤ 1) :
    ((CameraAnimTrack.addKey d2 s2 (some (p2, t2))
        (CameraAnimTrack.addKey d1 s1 (some (p1, t1)) t f).1 f).1.poses.countP
      (fun p => p.frame == f) = 1)
    ∧ ((CameraAnimTrack.addKey d2 s2 (some (p2, t2))
        (CameraAnimTrack.addKey d1 s1 (some (p1, t1)) t f).1 f).1.poses.length
      = (CameraAnimTrack.addKey d1 s1 (some (p1, t1)) t f).1.poses.length)
    ∧ ((CameraAnimTrack.addKey d2 s2 (some (p2, t2))
        (CameraAnimTrack.addKey d1 s1 (some (p1, t1)) t f).1 f).1.poses.map Pose.frame
      = (CameraAnimTrack.addKey d1 s1 (some (p1, t1)) t f).1.poses.map Pose.frame)
    ∧ ((CameraAnimTrack.addKey d2 s2 (some (p2, t2))
        (CameraAnimTrack.addKey d1 s1 (some (p1, t1)) t f).1 f).2
      = [Notification.keyUpdated f])
    ∧ (f ∉ t.poses.map Pose.frame →
        (CameraAnimTrack.addKey d1 s1 (some (p1, t1)) t f).2
            = [Notification.keyAdded f]
        ∧ (CameraAnimTrack.addKey d1 s1 (some (p1, t1)) t f).1.poses.length
            = t.poses.length + 1) := by
  cases hidx : t.poses.findIdx? (fun p => p.frame == f) with
  | none =>
    have h0 : t.poses.countP (fun p => p.frame == f) = 0 :=
      List.countP_eq_zero.mpr (fun a ha => by
        simpa using List.findIdx?_eq_none_iff.mp hidx a ha)
    have hr1 : (CameraAnimTrack.addKey d1 s1 (some (p1, t1)) t f).1.poses
        = t.poses ++ [⟨"camera_" ++ toString t.poses.length, f, p1, t1⟩] := by
      rw [cam_addKey_poses, hidx]
    have hfind2 : (CameraAnimTrack.addKey d1 s1 (some (p1, t1))
        t f).1.poses.findIdx? (fun p => p.frame == f) = some t.poses.length := by
      rw [hr1]
      exact findIdx?_append_fresh Pose.frame hidx rfl
    have hr2 : (CameraAnimTrack.addKey d2 s2 (some (p2, t2))
        (CameraAnimTrack.addKey d1 s1 (some (p1, t1)) t f).1 f).1.poses
        = t.poses ++ [⟨"camera_" ++ toString
            (CameraAnimTrack.addKey d1 s1 (some (p1, t1)) t f).1.poses.length,
            f, p2, t2⟩] := by
      rw [cam_addKey_poses, hfind2, hr1]
      simp [List.set_append]
    refine ⟨?_, ?_, ?_, ?_, ?_⟩
    · rw [hr2]
      simp [List.countP_append, h0, List.countP_cons]
    · rw [hr2, hr1]
      simp
    · rw [hr2, hr1]
      simp
    · rw [cam_addKey_events, hfind2]
    · intro _
      constructor
      · rw [cam_addKey_events, hidx]
      · rw [hr1]
        simp
  | some i =>
    obtain ⟨hlt, hbeq, -⟩ := List.findIdx?_eq_some_iff_getElem.mp hidx
    have hfr : t.poses[i].frame = f := by simpa using hbeq
    have hmemf : f ∈ t.poses.map Pose.frame :=
      List.mem_map.mpr ⟨t.poses[i], List.getElem_mem hlt, hfr⟩
    have hcount1 : t.poses.countP (fun p => p.frame == f) = 1 := by
      have hpos : 0 < t.poses.countP (fun p => p.frame == f) :=
        List.countP_pos_iff.mpr ⟨t.poses[i], List.getElem_mem hlt, by simp [hfr]⟩
      omega
    have hr1 : (CameraAnimTrack.addKey d1 s1 (some (p1, t1)) t f).1.poses
        = t.poses.set i ⟨"camera_" ++ toString t.poses.length, f, p1, t1⟩ := by
      rw [cam_addKey_poses, hidx]
    have hfind2 : (CameraAnimTrack.addKey d1 s1 (some (p1, t1))
        t f).1.poses.findIdx? (fun p => p.frame == f) = some i := by
      rw [hr1]
      exact findIdx?_set_same Pose.frame hidx rfl
    have hr2 : (CameraAnimTrack.addKey d2 s2 (some (p2, t2))
        (CameraAnimTrack.addKey d1 s1 (some (p1, t1)) t f).1 f).1.poses
        = t.poses.set i ⟨"camera_" ++ toString
            (CameraAnimTrack.addKey d1 s1 (some (p1, t1)) t f).1.poses.length,
            f, p2, t2⟩ := by
      rw [cam_addKey_poses, hfind2, hr1]
      simp only [List.set_set]
    refine ⟨?_, ?_, ?_, ?_, ?_⟩
    · rw [hr2, List.countP_set _ _ _ _ hlt]
      simp [hfr, hcount1]
    · rw [hr2, hr1]
      simp
    · rw [hr2, hr1, List.map_set, List.map_set]
    · rw [cam_addKey_events, hfind2]
    · intro hnot
      exact absurd hmemf hnot

/-- Store produced by the splat track's `addKey` (the entity transform
provider always yields a state). -/
theorem splat_addKey_poses (d s : ℚ) (tr : Vec3 × Quat × Vec3)
    (t : SplatAnimTrack) (f : ℚ) :
    (SplatAnimTrack.addKey d s tr t f).1.keyframes
      = match t.keyframes.findIdx? (fun k => k.frame == f) with
        | none => t.keyframes ++ [⟨f, tr.1, tr.2.1, tr.2.2⟩]
        | some i => t.keyframes.set i ⟨f, tr.1, tr.2.1, tr.2.2⟩ := by
  cases hidx : t.keyframes.findIdx? (fun k => k.frame == f) with
  | none => simp [SplatAnimTrack.addKey, hidx, keyframes_rebuildSplines]
  | some i => simp [SplatAnimTrack.addKey, hidx, keyframes_rebuildSplines]

/-- Notifications fired by the splat track's `addKey`. -/
theorem splat_addKey_events (d s : ℚ) (tr : Vec3 × Quat × Vec3)
    (t : SplatAnimTrack) (f : ℚ) :
    (SplatAnimTrack.addKey d s tr t f).2
      = match t.keyframes.findIdx? (fun k => k.frame == f) with
        | none => [Notification.keyAdded f]
        | some _ => [Notification.keyUpdated f] := by
  cases hidx : t.keyframes.findIdx? (fun k => k.frame == f) with
  | none => simp [SplatAnimTrack.addKey, hidx]
  | some i => simp [SplatAnimTrack.addKey, hidx]

/-- Calling the splat track's `addKey(f)` twice, from a store holding at
most one keyframe at `f` (its state provider — the bound entity's local
transform — is always available): afterwards exactly one keyframe sits
at `f`; the second call kept length and frame order and fired
`keyUpdated`; and when `f` was absent the first call appended and fired
`keyAdded`. -/
theorem splat_addKey_twice (d1 s1 d2 s2 : ℚ) (tr1 tr2 : Vec3 × Quat × Vec3)
    (t : SplatAnimTrack) (f : ℚ)
    (hone : t.keyframes.countP (fun k => k.frame == f) ≤ 1) :
    ((SplatAnimTrack.addKey d2 s2 tr2
        (SplatAnimTrack.addKey d1 s1 tr1 t f).1 f).1.keyframes.countP
      (fun k => k.frame == f) = 1)
    ∧ ((SplatAnimTrack.addKey d2 s2 tr2
        (SplatAnimTrack.addKey d1 s1 tr1 t f).1 f).1.keyframes.length
      = (SplatAnimTrack.addKey d1 s1 tr1 t f).1.keyframes.length)
    ∧ ((SplatAnimTrack.addKey d2 s2 tr2
        (SplatAnimTrack.addKey d1 s1 tr1 t f).1 f).1.keyframes.map TransformKey.frame
      = (SplatAnimTrack.addKey d1 s1 tr1 t f).1.keyframes.map TransformKey.frame)
    ∧ ((SplatAnimTrack.addKey d2 s2 tr2
        (SplatAnimTrack.addKey d1 s1 tr1 t f).1 f).2
      = [Notification.keyUpdated f])
    ∧ (f ∉ t.keyframes.map TransformKey.frame →
        (SplatAnimTrack.addKey d1 s1 tr1 t f).2 = [Notification.keyAdded f]
        ∧ (SplatAnimTrack.addKey d1 s1 tr1 t f).1.keyframes.length
            = t.keyframes.length + 1) := by
  cases hidx : t.keyframes.findIdx? (fun k => k.frame == f) with
  | none =>
    have h0 : t.keyframes.countP (fun k => k.frame == f) = 0 :=
      List.countP_eq_zero.mpr (fun a ha => by
        simpa using List.findIdx?_eq_none_iff.mp hidx a ha)
    have hr1 : (SplatAnimTrack.addKey d1 s1 tr1 t f).1.keyframes
        = t.keyframes ++ [⟨f, tr1.1, tr1.2.1, tr1.2.2⟩] := by
      rw [splat_addKey_poses, hidx]
    have hfind2 : (SplatAnimTrack.addKey d1 s1 tr1
        t f).1.keyframes.findIdx? (fun k => k.frame == f) = some t.keyframes.length := by
      rw [hr1]
      exact findIdx?_append_fresh TransformKey.frame hidx rfl
    have hr2 : (SplatAnimTrack.addKey d2 s2 tr2
        (SplatAnimTrack.addKey d1 s1 tr1 t f).1 f).1.keyframes
        = t.keyframes ++ [⟨f, tr2.1, tr2.2.1, tr2.2.2⟩] := by
      rw [splat_addKey_poses, hfind2, hr1]
      simp [List.set_append]
    refine ⟨?_, ?_, ?_, ?_, ?_⟩
    · rw [hr2]
      simp [List.countP_append, h0, List.countP_cons]
    · rw [hr2, hr1]
      simp
    · rw [hr2, hr1]
      simp
    · rw [splat_addKey_events, hfind2]
    · intro _
      constructor
      · rw [splat_addKey_events, hidx]
      · rw [hr1]
        simp
  | some i =>
    obtain ⟨hlt, hbeq, -⟩ := List.findIdx?_eq_some_iff_getElem.mp hidx
    have hfr : t.keyframes[i].frame = f := by simpa using hbeq
    have hmemf : f ∈ t.keyframes.map TransformKey.frame :=
      List.mem_map.mpr ⟨t.keyframes[i], List.getElem_mem hlt, hfr⟩
    have hcount1 : t.keyframes.countP (fun k => k.frame == f) = 1 := by
      have hpos : 0 < t.keyframes.countP (fun k => k.frame == f) :=
        List.countP_pos_iff.mpr ⟨t.keyframes[i], List.getElem_mem hlt, by simp [hfr]⟩
      omega
    have hr1 : (SplatAnimTrack.addKey d1 s1 tr1 t f).1.keyframes
        = t.keyframes.set i ⟨f, tr1.1, tr1.2.1, tr1.2.2⟩ := by
      rw [splat_addKey_poses, hidx]
    have hfind2 : (SplatAnimTrack.addKey d1 s1 tr1
        t f).1.keyframes.findIdx? (fun k => k.frame == f) = some i := by
      rw [hr1]
      exact findIdx?_set_same TransformKey.frame hidx rfl
    have hr2 : (SplatAnimTrack.addKey d2 s2 tr2
        (SplatAnimTrack.addKey d1 s1 tr1 t f).1 f).1.keyframes
        = t.keyframes.set i ⟨f, tr2.1, tr2.2.1, tr2.2.2⟩ := by
      rw [splat_addKey_poses, hfind2, hr1]
      simp only [List.set_set]
    refine ⟨?_, ?_, ?_, ?_, ?_⟩
    · rw [hr2, List.countP_set _ _ _ _ hlt]
      simp [hfr, hcount1]
    · rw [hr2, hr1]
      simp
    · rw [hr2, hr1, List.map_set, List.map_set]
    · rw [splat_addKey_events, hfind2]
    · intro hnot
      exact absurd hmemf hnot

/-! ### Frame uniqueness is preserved by every camera-track operation -/

theorem cam_nodup_addKey (d s : ℚ) (gp : Option (Vec3 × Vec3)) (f : ℚ)
    (t : CameraAnimTrack) (h : (t.poses.map Pose.frame).Nodup) :
    ((CameraAnimTrack.addKey d s gp t f).1.poses.map Pose.frame).Nodup := by
  cases gp with
  | none => exact h
  | some pt =>
    obtain ⟨pos, tgt⟩ := pt
    cases hidx : t.poses.findIdx? (fun p => p.frame == f) with
    | none =>
      simp only [CameraAnimTrack.addKey, hidx, poses_rebuildSpline]
      exact nodup_frames_append Pose.frame h (frames_findIdx?_none Pose.frame hidx)
    | some i =>
      simp only [CameraAnimTrack.addKey, hidx, poses_rebuildSpline]
      rw [frames_set_same Pose.frame (frames_findIdx?_some Pose.frame hidx)]
      exact h

theorem cam_nodup_removeKey (d s f : ℚ) (t : CameraAnimTrack)
    (h : (t.poses.map Pose.frame).Nodup) :
    ((CameraAnimTrack.removeKey d s t f).1.poses.map Pose.frame).Nodup := by
  cases hidx : t.poses.findIdx? (fun p => p.frame == f) with
  | none => simpa only [CameraAnimTrack.removeKey, hidx] using h
  | some i =>
    simp only [CameraAnimTrack.removeKey, hidx, poses_rebuildSpline]
    rw [map_eraseIdx]
    exact List.Nodup.sublist (List.eraseIdx_sublist _ i) h

theorem cam_nodup_moveKey (d s a b : ℚ) (t : CameraAnimTrack)
    (h : (t.poses.map Pose.frame).Nodup) :
    ((exceptState (CameraAnimTrack.moveKey d s t a b)).poses.map Pose.frame).Nodup := by
  unfold CameraAnimTrack.moveKey
  by_cases hab : a = b
  · simpa [hab, exceptState] using h
  · have hab' : (a == b) = false := by simp [hab]
    rw [hab']
    simp only [Bool.false_eq_true, if_false]
    cases hfrom : t.poses.findIdx? (fun p => p.frame == a) with
    | none => simpa [exceptState] using h
    | some index =>
      simp only
      cases hto : t.poses.findIdx? (fun p => p.frame == b) with
      | none =>
        simp only
        cases hel : t.poses[index]? with
        | none => simpa [hel, exceptState] using h
        | some p =>
          simp only [hel, exceptState, poses_rebuildSpline]
          rw [List.map_set]
          exact List.Nodup.set h (frames_findIdx?_none Pose.frame hto)
      | some toIndex =>
        simp only
        cases hel : (t.poses.eraseIdx toIndex)[index]? with
        | none =>
          simp only [hel, exceptState]
          rw [map_eraseIdx]
          exact List.Nodup.sublist (List.eraseIdx_sublist _ toIndex) h
        | some p =>
          simp only [hel, exceptState, poses_rebuildSpline]
          rw [List.map_set, map_eraseIdx]
          exact List.Nodup.set
            (List.Nodup.sublist (List.eraseIdx_sublist _ toIndex) h)
            (not_mem_eraseIdx_of_nodup _ toIndex b h
              (frames_findIdx?_some Pose.frame hto))

theorem cam_nodup_addPose (d s : ℚ) (p : Pose) (t : CameraAnimTrack)
    (h : (t.poses.map Pose.frame).Nodup) :
    ((CameraAnimTrack.addPose d s t p).poses.map Pose.frame).Nodup := by
  cases hidx : t.poses.findIdx? (fun q => q.frame == p.frame) with
  | none =>
    simp only [CameraAnimTrack.addPose, hidx, poses_rebuildSpline]
    exact nodup_frames_append Pose.frame h (frames_findIdx?_none Pose.frame hidx)
  | some i =>
    simp only [CameraAnimTrack.addPose, hidx, poses_rebuildSpline]
    rw [frames_set_same Pose.frame (frames_findIdx?_some Pose.frame hidx)]
    exact h

/-- Every camera-track state reachable through the mutation interface —
with bulk loads of duplicate-free data — keeps frames unique. -/
theorem cam_reachable_nodup (t : CameraAnimTrack) (h : CamReachable t) :
    (t.poses.map Pose.frame).Nodup := by
  induction h with
  | refl => simp [camInit]
  | tail hsteps hstep ih =>
    cases hstep with
    | addKey d s gp f => exact cam_nodup_addKey d s gp f _ ih
    | removeKey d s f => exact cam_nodup_removeKey d s f _ ih
    | moveKeyOk d s a b =>
      rename_i ns hok
      have := cam_nodup_moveKey d s a b _ ih
      rwa [hok] at this
    | moveKeyErr d s a b =>
      rename_i herr
      have := cam_nodup_moveKey d s a b _ ih
      rwa [herr] at this
    | clear => simp [CameraAnimTrack.clear]
    | addPose d s p => exact cam_nodup_addPose d s p _ ih
    | loadPoses d s data =>
      rename_i hnd
      simpa [CameraAnimTrack.loadPoses, poses_rebuildSpline] using hnd

/-! ### Frame uniqueness is preserved by every splat-track operation -/

theorem splat_nodup_addKey (d s : ℚ) (tr : Vec3 × Quat × Vec3) (f : ℚ)
    (t : SplatAnimTrack) (h : (t.keyframes.map TransformKey.frame).Nodup) :
    ((SplatAnimTrack.addKey d s tr t f).1.keyframes.map TransformKey.frame).Nodup := by
  cases hidx : t.keyframes.findIdx? (fun k => k.frame == f) with
  | none =>
    simp only [SplatAnimTrack.addKey, hidx, keyframes_rebuildSplines]
    exact nodup_frames_append TransformKey.frame h
      (frames_findIdx?_none TransformKey.frame hidx)
  | some i =>
    simp only [SplatAnimTrack.addKey, hidx, keyframes_rebuildSplines]
    rw [frames_set_same TransformKey.frame (frames_findIdx?_some TransformKey.frame hidx)]
    exact h

theorem splat_nodup_removeKey (d s f : ℚ) (t : SplatAnimTrack)
    (h : (t.keyframes.map TransformKey.frame).Nodup) :
    ((SplatAnimTrack.removeKey d s t f).1.keyframes.map TransformKey.frame).Nodup := by
  cases hidx : t.keyframes.findIdx? (fun k => k.frame == f) with
  | none => simpa only [SplatAnimTrack.removeKey, hidx] using h
  | some i =>
    simp only [SplatAnimTrack.removeKey, hidx, keyframes_rebuildSplines]
    rw [map_eraseIdx]
    exact List.Nodup.sublist (List.eraseIdx_sublist _ i) h

theorem splat_nodup_moveKey (d s a b : ℚ) (t : SplatAnimTrack)
    (h : (t.keyframes.map TransformKey.frame).Nodup) :
    ((exceptState (SplatAnimTrack.moveKey d s t a b)).keyframes.map
      TransformKey.frame).Nodup := by
  unfold SplatAnimTrack.moveKey
  by_cases hab : a = b
  · simpa [hab, exceptState] using h
  · have hab' : (a == b) = false := by simp [hab]
    rw [hab']
    simp only [Bool.false_eq_true, if_false]
    cases hfrom : t.keyframes.findIdx? (fun k => k.frame == a) with
    | none => simpa [exceptState] using h
    | some index =>
      simp only
      cases hto : t.keyframes.findIdx? (fun k => k.frame == b) with
      | none =>
        simp only
        cases hel : t.keyframes[index]? with
        | none => simpa [hel, exceptState] using h
        | some k =>
          simp only [hel, exceptState, keyframes_rebuildSplines]
          rw [List.map_set]
          exact List.Nodup.set h (frames_findIdx?_none TransformKey.frame hto)
      | some toIndex =>
        simp only
        cases hel : (t.keyframes.eraseIdx toIndex)[index]? with
        | none =>
          simp only [hel, exceptState]
          rw [map_eraseIdx]
          exact List.Nodup.sublist (List.eraseIdx_sublist _ toIndex) h
        | some k =>
          simp only [hel, exceptState, keyframes_rebuildSplines]
          rw [List.map_set, map_eraseIdx]
          exact List.Nodup.set
            (List.Nodup.sublist (List.eraseIdx_sublist _ toIndex) h)
            (not_mem_eraseIdx_of_nodup _ toIndex b h
              (frames_findIdx?_some TransformKey.frame hto))

/-- Every splat-track state reachable through the mutation interface —
with bulk loads of duplicate-free data — keeps frames unique. -/
theorem splat_reachable_nodup (t : SplatAnimTrack) (h : SplatReachable t) :
    (t.keyframes.map TransformKey.frame).Nodup := by
  induction h with
  | refl => simp [splatInit]
  | tail hsteps hstep ih =>
    cases hstep with
    | addKey d s tr f => exact splat_nodup_addKey d s tr f _ ih
    | removeKey d s f => exact splat_nodup_removeKey d s f _ ih
    | moveKeyOk d s a b =>
      rename_i ns hok
      have := splat_nodup_moveKey d s a b _ ih
      rwa [hok] at this
    | moveKeyErr d s a b =>
      rename_i herr
      have := splat_nodup_moveKey d s a b _ ih
      rwa [herr] at this
    | clear => simp [SplatAnimTrack.clear]
    | loadKeyframes d s data =>
      rename_i hnd
      simpa [SplatAnimTrack.loadKeyframes, keyframes_rebuildSplines] using hnd

/-- Bracket scan over a two-element chronological key list: a query
before the first key wraps (`prev` = last, `next` = first), a query
strictly inside the span brackets forward, and a query at or past the
last key wraps again. -/
theorem bracketKeys_pair (a b : TransformKey) (f : ℚ) :
    bracketKeys [a, b] f =
      if f < a.frame then some (b, a)
      else if f < b.frame then some (a, b)
      else some (b, a) := by
  by_cases h1 : f < a.frame
  · simp [bracketKeys, List.findIdx?_cons, h1]
  · by_cases h2 : f < b.frame
    · simp [bracketKeys, List.findIdx?_cons, h1, h2]
    · simp [bracketKeys, List.findIdx?_cons, h1, h2]

/-- `evaluate` projected onto the rotation channel: with a cached
interpolation state, the rotation assigned at `f` is the slerp of the
bracketing keys' rotations at the clamped wrap-aware factor. -/
theorem evaluate_rotation (se : SplineEval) (sl : Slerp) (t : SplatAnimTrack)
    (f : ℚ) {sp1 sp2 : CubicSpline} {rk : List TransformKey} {dd : ℚ}
    (h : t.onTimelineChange = some ⟨sp1, sp2, rk, dd⟩) :
    (SplatAnimTrack.evaluate se sl t f).2.2.map SplatMove.rotation =
      (bracketKeys rk f).map (fun pn =>
        let prevFrame := pn.1.frame
        let nextFrame := if pn.2.frame ≤ prevFrame then pn.2.frame + dd else pn.2.frame
        let t0 :=
          if f < prevFrame then (f + dd - prevFrame) / (nextFrame - prevFrame)
          else (f - prevFrame) / (nextFrame - prevFrame)
        sl pn.1.rotation pn.2.rotation (max 0 (min 1 t0))) := by
  obtain ⟨kf, otc⟩ := t
  simp only at h
  subst h
  simp only [SplatAnimTrack.evaluate, SplatInterp.run]
  cases bracketKeys rk f with
  | none => rfl
  | some pn => rfl

/-- C1.  REFUTED — the code is a slip against its own stated intent
("Remove any existing keyframe at the target frame" … "Update the
frame"): `moveKey` computes the source index *before* splicing out the
`toFrame` occupant, then writes `poses[index].frame` with the stale
index.  First conjunct: with store `[a@5, b@3]` (both frames present),
`moveKey(3, 5)` throws a `TypeError` — after the splice the stale index
1 is past the end of the array — leaving the spliced store `[b@3]` and
firing nothing.  Second conjunct: with a third record after the source
(`[a@5, b@3, c@7]`), the stale index designates `c`, so the store
becomes `[b@3, c@5]`: frame 3 is still present and the payload now at
frame 5 is `c`'s, not the source record `b`'s, contradicting the claimed
in-place move of the source payload and the claimed removal of `a`
(the count does drop by one, but on the wrong records). -/
theorem camera_moveKey_collision_stale_index :
    (CameraAnimTrack.moveKey 20 1 ⟨[samplePose "a" 5 1, samplePose "b" 3 2], none⟩ 3 5
      = Except.error ⟨[samplePose "b" 3 2], none⟩)
    ∧ ((CameraAnimTrack.moveKey 20 1
        ⟨[samplePose "a" 5 1, samplePose "b" 3 2, samplePose "c" 7 3], none⟩ 3 5).map
          (fun r => r.1.poses.map (fun p => (p.name, p.frame)))
      = Except.ok [("b", 3), ("c", 5)]) :=
  ⟨rfl, rfl⟩

/-- C2.  REFUTED — the code contradicts its own comments ("Rebuild
spline when timeline parameters change" / "Trigger rebuild by evaluating
at current frame"): the `timeline.frames` handler only calls
`track.evaluate(...)`, which invokes the *cached* closure; the private
`rebuildSpline` is reached from no timeline-parameter event.  With poses
at frames 0 and 10 fit while the duration was 20, shrinking the duration
to 5 leaves the cache untouched (first two conjuncts: the handler
returns the track unchanged, still caching the spline with period 20 and
a sample at the now-inactive frame 10), and the handler's own
`evaluate` samples that stale spline and assigns a pose (third
conjunct), whereas an actual rebuild at duration 5 leaves fewer than two
active keyframes, after which `evaluate` assigns nothing (fourth
conjunct). -/
theorem camera_stale_spline_after_duration_change :
    (onTimelineFramesChanged zeroEval 3
        (CameraAnimTrack.loadPoses 20 1 camInit
          [samplePose "a" 0 1, samplePose "b" 10 2]).1).1
      = (CameraAnimTrack.loadPoses 20 1 camInit
          [samplePose "a" 0 1, samplePose "b" 10 2]).1
    ∧ ((CameraAnimTrack.loadPoses 20 1 camInit
          [samplePose "a" 0 1, samplePose "b" 10 2]).1.onTimelineChange
      = some ⟨20, [0, 10], [1, 0, 0, 0, 0, 0, 2, 0, 0, 0, 0, 0], 1⟩)
    ∧ ((onTimelineFramesChanged zeroEval 3
        (CameraAnimTrack.loadPoses 20 1 camInit
          [samplePose "a" 0 1, samplePose "b" 10 2]).1).2.2
      = some ⟨zeroV, zeroV⟩)
    ∧ ((CameraAnimTrack.evaluate zeroEval
        (CameraAnimTrack.rebuildSpline 5 1
          (CameraAnimTrack.loadPoses 20 1 camInit
            [samplePose "a" 0 1, samplePose "b" 10 2]).1) 3).2.2
      = none) :=
  ⟨rfl, rfl, rfl, rfl⟩

/-- C3.  REFUTED — one dispatched operation does raise an error: with a
splat selected whose track holds keyframes inserted at frames 5 then 3,
the resolver-dispatched `track.moveKey(3, 5)` reaches
`SplatAnimTrack.moveKey`, which splices out the frame-5 occupant (store
index 0) and then dereferences the stale source index 1 of the shortened
array: a `TypeError`, not a no-op (the other degraded preconditions do
no-op, but the claim quantifies over every sequence and argument
value). -/
theorem splat_dispatch_moveKey_throws :
    dispatchMoveKey sampleEnv
      ⟨some (Selectable.splat (some ⟨[sampleKey 5 1, sampleKey 3 2], none⟩)), camInit⟩
      3 5
    = Except.error
        ⟨some (Selectable.splat (some ⟨[sampleKey 3 2], none⟩)), camInit⟩ :=
  rfl

/-- C10.  CONFIRMED — `evaluate` only invokes the cached closure: on
both tracks it returns the state it was given (no record added, removed,
reordered or mutated, cache untouched) and fires no structural
notification; its whole product is the optional write to the bound
target. -/
theorem evaluate_is_pure_query :
    (∀ (se : SplineEval) (sl : Slerp) (t : SplatAnimTrack) (f : ℚ),
      (SplatAnimTrack.evaluate se sl t f).1 = t
        ∧ (SplatAnimTrack.evaluate se sl t f).2.1 = [])
    ∧ (∀ (se : SplineEval) (t : CameraAnimTrack) (f : ℚ),
      (CameraAnimTrack.evaluate se t f).1 = t
        ∧ (CameraAnimTrack.evaluate se t f).2.1 = []) := by
  constructor
  · intro se sl t f
    obtain ⟨kf, otc⟩ := t
    cases otc <;> exact ⟨rfl, rfl⟩
  · intro se t f
    obtain ⟨ps, otc⟩ := t
    cases otc <;> exact ⟨rfl, rfl⟩

/-- C7.  CONFIRMED — a rebuild that finds fewer than two active
keyframes (`frame < duration`) drops the cached interpolation state, and
`clear()` nulls it directly; with an empty cache `evaluate(f)` returns
the track unchanged, fires nothing and performs no assignment to the
bound target, for every frame — and since `evaluate` never changes the
track, this persists until some mutation rebuilds a cache.  Both
conjunct pairs: the transform track, then the pose track. -/
theorem no_assignment_below_two_active_keys :
    (∀ (d s : ℚ) (t : SplatAnimTrack),
      (t.keyframes.filter (fun k => k.frame < d)).length < 2 →
      (SplatAnimTrack.rebuildSplines d s t).onTimelineChange = none
        ∧ ∀ (se : SplineEval) (sl : Slerp) (f : ℚ),
            SplatAnimTrack.evaluate se sl (SplatAnimTrack.rebuildSplines d s t) f
              = (SplatAnimTrack.rebuildSplines d s t, [], none))
    ∧ (∀ (t : SplatAnimTrack) (se : SplineEval) (sl : Slerp) (f : ℚ),
        (SplatAnimTrack.clear t).1.onTimelineChange = none
          ∧ SplatAnimTrack.evaluate se sl (SplatAnimTrack.clear t).1 f
              = ((SplatAnimTrack.clear t).1, [], none))
    ∧ (∀ (d s : ℚ) (t : CameraAnimTrack),
      (t.poses.filter (fun a => a.frame < d)).length < 2 →
      (CameraAnimTrack.rebuildSpline d s t).onTimelineChange = none
        ∧ ∀ (se : SplineEval) (f : ℚ),
            CameraAnimTrack.evaluate se (CameraAnimTrack.rebuildSpline d s t) f
              = (CameraAnimTrack.rebuildSpline d s t, [], none))
    ∧ (∀ (t : CameraAnimTrack) (se : SplineEval) (f : ℚ),
        (CameraAnimTrack.clear t).1.onTimelineChange = none
          ∧ CameraAnimTrack.evaluate se (CameraAnimTrack.clear t).1 f
              = ((CameraAnimTrack.clear t).1, [], none)) := by
  have hsplat : ∀ (d s : ℚ) (t : SplatAnimTrack),
      (t.keyframes.filter (fun k => k.frame < d)).length < 2 →
      SplatAnimTrack.rebuildSplines d s t = { t with onTimelineChange := none } := by
    intro d s t h
    have hlen : (sortByFrame (fun k => k.frame)
        (t.keyframes.filter (fun k => k.frame < d))).length < 2 := by
      rw [length_sortByFrame]; exact h
    simp only [SplatAnimTrack.rebuildSplines]
    rw [if_pos hlen]
  have hcam : ∀ (d s : ℚ) (t : CameraAnimTrack),
      (t.poses.filter (fun a => a.frame < d)).length < 2 →
      CameraAnimTrack.rebuildSpline d s t = { t with onTimelineChange := none } := by
    intro d s t h
    have hlen : ¬ (sortByFrame (fun p => p.frame)
        (t.poses.filter (fun a => a.frame < d))).length > 1 := by
      rw [length_sortByFrame]; omega
    simp only [CameraAnimTrack.rebuildSpline]
    rw [if_neg hlen]
  refine ⟨?_, ?_, ?_, ?_⟩
  · intro d s t h
    rw [hsplat d s t h]
    exact ⟨rfl, fun se sl f => rfl⟩
  · intro t se sl f
    exact ⟨rfl, rfl⟩
  · intro d s t h
    rw [hcam d s t h]
    exact ⟨rfl, fun se f => rfl⟩
  · intro t se f
    exact ⟨rfl, rfl⟩

/-- C7 witness: concrete instantiation — a transform track holding a
single keyframe at frame 0 (below two active keys at duration 20)
rebuilds to an empty cache and evaluates to no assignment. -/
theorem no_assignment_below_two_active_keys_witness :
    ((⟨[sampleKey 0 1], none⟩ : SplatAnimTrack).keyframes.filter
        (fun k => k.frame < 20)).length < 2
    ∧ (SplatAnimTrack.rebuildSplines 20 1 ⟨[sampleKey 0 1], none⟩).onTimelineChange = none
    ∧ SplatAnimTrack.evaluate zeroEval stepSlerp
        (SplatAnimTrack.rebuildSplines 20 1 ⟨[sampleKey 0 1], none⟩) 7
      = (SplatAnimTrack.rebuildSplines 20 1 ⟨[sampleKey 0 1], none⟩, [], none) := by
  have h : ((⟨[sampleKey 0 1], none⟩ : SplatAnimTrack).keyframes.filter
      (fun k => k.frame < 20)).length < 2 := by decide
  obtain ⟨h1, h2⟩ := no_assignment_below_two_active_keys.1 20 1 ⟨[sampleKey 0 1], none⟩ h
  exact ⟨h, h1, h2 zeroEval stepSlerp 7⟩

/-- C9.  CONFIRMED — `docSerialize.poseSets` emits every stored pose
(unfiltered by duration, so keyframes at or beyond the duration are
included) as `{name, frame, position[3], target[3]}` in store order, and
`docDeserialize.poseSets` loads them back verbatim (every serialized
record carries an explicit frame, so the legacy `index * frameRate`
backfill never fires): round-tripping the track reproduces a store equal
to the original record for record — identical names, frames, positions
and targets in identical order.  (An empty store serializes to `[]`,
which deserialization leaves untouched, preserving the store equally.) -/
theorem pose_serialization_round_trip :
    ∀ (fps d s : ℚ) (t : CameraAnimTrack),
      (docDeserializePoseSets fps d s (docSerializePoseSets t) t).1.poses = t.poses := by
  intro fps d s t
  by_cases hlen : t.poses.length = 0
  · simp [docSerializePoseSets, CameraAnimTrack.getPoses, hlen, docDeserializePoseSets]
  · simp only [docSerializePoseSets, CameraAnimTrack.getPoses, hlen, if_neg,
      docDeserializePoseSets, mapWithIndex, CameraAnimTrack.loadPoses,
      poses_rebuildSpline, ite_false]
    rw [mapWithIndexFrom_map]
    rw [mapWithIndexFrom_id]
    intro n a _
    simp only [Option.getD_some]
    rw [vec3OfList_pack3, vec3OfList_pack3]

/-- C8.  CONFIRMED — `getActiveTrack` tests `selection.isCamera` first,
so a selected camera always resolves to the camera's singleton pose
track whatever else the world holds; with no resolved track the
dispatched `track.keys` query yields `[]` and the dispatched
add/remove/move events return the world unchanged with no notification;
and the dispatched `addKey`/`removeKey` with an omitted frame behave
exactly as if called with the timeline cursor frame (`frame ??
events.invoke('timeline.frame')`). -/
theorem track_resolver_dispatch :
    (∀ w : World, selectionIsCamera w.selection = true →
      getActiveTrack w = some (Sum.inl w.cameraTrack))
    ∧ (∀ w : World, getActiveTrack w = none →
      trackKeys w = []
        ∧ (∀ (env : Env) (fr : Option ℚ),
            dispatchAddKey env w fr = (w, []) ∧ dispatchRemoveKey env w fr = (w, []))
        ∧ (∀ (env : Env) (a b : ℚ), dispatchMoveKey env w a b = Except.ok (w, [])))
    ∧ (∀ (env : Env) (w : World),
      dispatchAddKey env w none = dispatchAddKey env w (some env.cursorFrame)
        ∧ dispatchRemoveKey env w none
            = dispatchRemoveKey env w (some env.cursorFrame)) := by
  refine ⟨?_, ?_, ?_⟩
  · intro w h
    simp [getActiveTrack, h]
  · intro w h
    obtain ⟨sel, cam⟩ := w
    match sel with
    | none =>
      exact ⟨rfl, fun env fr => ⟨rfl, rfl⟩, fun env a b => rfl⟩
    | some Selectable.camera =>
      simp [getActiveTrack, selectionIsCamera] at h
    | some (Selectable.splat none) =>
      exact ⟨rfl, fun env fr => ⟨rfl, rfl⟩, fun env a b => rfl⟩
    | some (Selectable.splat (some tr)) =>
      simp [getActiveTrack, selectionIsCamera] at h
  · intro env w
    obtain ⟨sel, cam⟩ := w
    match sel with
    | none => exact ⟨rfl, rfl⟩
    | some Selectable.camera => exact ⟨rfl, rfl⟩
    | some (Selectable.splat none) => exact ⟨rfl, rfl⟩
    | some (Selectable.splat (some tr)) => exact ⟨rfl, rfl⟩

/-- C8 witness: the camera selected resolves to the camera track; with
nothing selected, keys read empty, dispatched add is a silent no-op and
equals its cursor-defaulted form. -/
theorem track_resolver_dispatch_witness :
    getActiveTrack ⟨some Selectable.camera, camInit⟩ = some (Sum.inl camInit)
    ∧ trackKeys ⟨none, camInit⟩ = []
    ∧ dispatchAddKey sampleEnv ⟨none, camInit⟩ none = (⟨none, camInit⟩, [])
    ∧ dispatchMoveKey sampleEnv ⟨none, camInit⟩ 3 5 = Except.ok (⟨none, camInit⟩, [])
    ∧ dispatchAddKey sampleEnv ⟨none, camInit⟩ none
        = dispatchAddKey sampleEnv ⟨none, camInit⟩ (some sampleEnv.cursorFrame) := by
  have h1 := track_resolver_dispatch.1 ⟨some Selectable.camera, camInit⟩ rfl
  have h2 := track_resolver_dispatch.2.1 ⟨none, camInit⟩ rfl
  have h3 := track_resolver_dispatch.2.2 sampleEnv ⟨none, camInit⟩
  exact ⟨h1, h2.1, (h2.2.1 sampleEnv none).1, h2.2.2 sampleEnv 3 5, h3.1⟩

/-- C4 counterexample: the claim is false as stated — `loadPoses`
copies its input verbatim (`posesData.forEach(pose =>
this.poses.push(pose))`, no per-frame dedup), so loading two poses that
both carry frame 0 into the fresh track (one `loadPoses` call, an
operation the claim includes) yields a store holding two keyframes at
frame 0. -/
theorem keyframe_store_duplicate_frames_after_load :
    ((CameraAnimTrack.loadPoses 10 1 camInit
        [samplePose "a" 0 1, samplePose "b" 0 2]).1.poses.countP
      (fun p => p.frame == 0)) = 2 := by
  decide

/-- C4 (amended: bulk loads restricted to payloads with pairwise
distinct frames).  CONFIRMED for the amended operation set — every
state of either track reachable through addKey / removeKey / moveKey
(including a thrown move) / clear / addPose / loadKeyframes / loadPoses
with duplicate-free load data contains at most one keyframe per
distinct frame value. -/
theorem keyframe_store_frames_unique :
    (∀ t : CameraAnimTrack, CamReachable t → ∀ f : ℚ,
        t.poses.countP (fun p => p.frame == f) ≤ 1)
    ∧ (∀ t : SplatAnimTrack, SplatReachable t → ∀ f : ℚ,
        t.keyframes.countP (fun k => k.frame == f) ≤ 1) := by
  constructor
  · intro t h f
    have hn := List.nodup_iff_count_le_one.mp (cam_reachable_nodup t h) f
    rwa [List.count, List.countP_map] at hn
  · intro t h f
    have hn := List.nodup_iff_count_le_one.mp (splat_reachable_nodup t h) f
    rwa [List.count, List.countP_map] at hn

/-- C4 witness: the store reached by a single `addKey(0)` on the fresh
camera track holds at most one keyframe at every frame. -/
theorem keyframe_store_frames_unique_witness :
    ((CameraAnimTrack.addKey 20 1 (some (zeroV, zeroV))
      camInit 0).1.poses.countP (fun p => p.frame == 0)) ≤ 1 :=
  keyframe_store_frames_unique.1 _
    (Relation.ReflTransGen.single
      (CamStep.addKey 20 1 (some (zeroV, zeroV)) 0 camInit)) 0

/-- C6 counterexample: the claim is false as stated — it quantifies
over *every* state of the bound target's state provider, but when the
pose track's provider yields nothing (`camera.getPose` falsy), `addKey`
is a no-op: two successive `addKey(0)` calls on the fresh camera track
leave *zero* keyframes at frame 0, and the first call fires no
`keyAdded`. -/
theorem addKey_twice_no_provider :
    ((CameraAnimTrack.addKey 20 1 none
        (CameraAnimTrack.addKey 20 1 none camInit 0).1 0).1.poses.countP
      (fun p => p.frame == 0)) = 0
    ∧ (CameraAnimTrack.addKey 20 1 none camInit 0).2 = [] :=
  ⟨rfl, rfl⟩

/-- C6 (amended: the state provider yields a state on each call — the
transform track's always does — and the store holds at most one
keyframe at `f` beforehand, as the uniqueness invariant guarantees).
CONFIRMED as amended, on both tracks: after `addKey(f)` twice, exactly
one keyframe sits at `f`; the second call overwrote the record in place
— store length and frame order unchanged — firing `keyUpdated`; the
first call appended a fresh record firing `keyAdded` whenever `f` was
absent. -/
theorem addKey_twice_idempotent :
    (∀ (d1 s1 d2 s2 : ℚ) (p1 t1 p2 t2 : Vec3) (t : CameraAnimTrack) (f : ℚ),
      t.poses.countP (fun p => p.frame == f) ≤ 1 →
      ((CameraAnimTrack.addKey d2 s2 (some (p2, t2))
          (CameraAnimTrack.addKey d1 s1 (some (p1, t1)) t f).1 f).1.poses.countP
        (fun p => p.frame == f) = 1)
      ∧ ((CameraAnimTrack.addKey d2 s2 (some (p2, t2))
          (CameraAnimTrack.addKey d1 s1 (some (p1, t1)) t f).1 f).1.poses.length
        = (CameraAnimTrack.addKey d1 s1 (some (p1, t1)) t f).1.poses.length)
      ∧ ((CameraAnimTrack.addKey d2 s2 (some (p2, t2))
          (CameraAnimTrack.addKey d1 s1 (some (p1, t1)) t f).1 f).1.poses.map
            Pose.frame
        = (CameraAnimTrack.addKey d1 s1 (some (p1, t1)) t f).1.poses.map Pose.frame)
      ∧ ((CameraAnimTrack.addKey d2 s2 (some (p2, t2))
          (CameraAnimTrack.addKey d1 s1 (some (p1, t1)) t f).1 f).2
        = [Notification.keyUpdated f])
      ∧ (f ∉ t.poses.map Pose.frame →
          (CameraAnimTrack.addKey d1 s1 (some (p1, t1)) t f).2
              = [Notification.keyAdded f]
          ∧ (CameraAnimTrack.addKey d1 s1 (some (p1, t1)) t f).1.poses.length
              = t.poses.length + 1))
    ∧ (∀ (d1 s1 d2 s2 : ℚ) (tr1 tr2 : Vec3 × Quat × Vec3) (t : SplatAnimTrack)
        (f : ℚ),
      t.keyframes.countP (fun k => k.frame == f) ≤ 1 →
      ((SplatAnimTrack.addKey d2 s2 tr2
          (SplatAnimTrack.addKey d1 s1 tr1 t f).1 f).1.keyframes.countP
        (fun k => k.frame == f) = 1)
      ∧ ((SplatAnimTrack.addKey d2 s2 tr2
          (SplatAnimTrack.addKey d1 s1 tr1 t f).1 f).1.keyframes.length
        = (SplatAnimTrack.addKey d1 s1 tr1 t f).1.keyframes.length)
      ∧ ((SplatAnimTrack.addKey d2 s2 tr2
          (SplatAnimTrack.addKey d1 s1 tr1 t f).1 f).1.keyframes.map
            TransformKey.frame
        = (SplatAnimTrack.addKey d1 s1 tr1 t f).1.keyframes.map TransformKey.frame)
      ∧ ((SplatAnimTrack.addKey d2 s2 tr2
          (SplatAnimTrack.addKey d1 s1 tr1 t f).1 f).2
        = [Notification.keyUpdated f])
      ∧ (f ∉ t.keyframes.map TransformKey.frame →
          (SplatAnimTrack.addKey d1 s1 tr1 t f).2 = [Notification.keyAdded f]
          ∧ (SplatAnimTrack.addKey d1 s1 tr1 t f).1.keyframes.length
              = t.keyframes.length + 1)) :=
  ⟨fun d1 s1 d2 s2 p1 t1 p2 t2 t f h =>
      cam_addKey_twice d1 s1 d2 s2 p1 t1 p2 t2 t f h,
   fun d1 s1 d2 s2 tr1 tr2 t f h =>
      splat_addKey_twice d1 s1 d2 s2 tr1 tr2 t f h⟩

/-- C6 witness: on the fresh camera track with the provider available,
two `addKey(0)` calls leave exactly one keyframe at frame 0. -/
theorem addKey_twice_idempotent_witness :
    ((CameraAnimTrack.addKey 20 1 (some (zeroV, zeroV))
        (CameraAnimTrack.addKey 20 1 (some (zeroV, zeroV)) camInit 0).1 0).1.poses.countP
      (fun p => p.frame == 0)) = 1 :=
  (addKey_twice_idempotent.1 20 1 20 1 zeroV zeroV zeroV zeroV camInit 0
    (by decide)).1

/-- C5.  CONFIRMED — for a transform track whose store holds exactly
two active keyframes, at frames `0` and `d/2` with distinct rotations,
rebuilt at duration `d`: `evaluate(0)` brackets `(k0, k1)` with factor
`0`, assigning exactly `k0`'s rotation; `evaluate(d/2)` hits the wrap
branch `(prev, next) = (k1, k0)` with factor `0`, assigning exactly
`k1`'s rotation; `evaluate(3d/4)` lies on the wrap segment with
`nextFrame` lifted by the duration, factor `(3d/4 − d/2)/(d − d/2) =
1/2`, assigning `slerp(k1.rotation, k0.rotation, 1/2)`.  `slerp` is the
opaque playcanvas interpolator, constrained only by its endpoint law
`slerp(a, b, 0) = a`. -/
theorem transform_two_key_rotation_slerp (se : SplineEval) (sl : Slerp)
    (hs0 : ∀ a b : Quat, sl a b 0 = a) (d s : ℚ) (hd : 0 < d)
    (k0 k1 : TransformKey) (h0 : k0.frame = 0) (h1 : k1.frame = d / 2)
    (_hrot : k0.rotation ≠ k1.rotation) :
    ((SplatAnimTrack.evaluate se sl
        (SplatAnimTrack.rebuildSplines d s ⟨[k0, k1], none⟩) 0).2.2.map
          SplatMove.rotation = some k0.rotation)
    ∧ ((SplatAnimTrack.evaluate se sl
        (SplatAnimTrack.rebuildSplines d s ⟨[k0, k1], none⟩) (d / 2)).2.2.map
          SplatMove.rotation = some k1.rotation)
    ∧ ((SplatAnimTrack.evaluate se sl
        (SplatAnimTrack.rebuildSplines d s ⟨[k0, k1], none⟩) (3 * d / 4)).2.2.map
          SplatMove.rotation = some (sl k1.rotation k0.rotation (1 / 2))) := by
  have hhalf : (0 : ℚ) < d / 2 := half_pos hd
  have hfilter : List.filter (fun k => decide (k.frame < d)) [k0, k1] = [k0, k1] := by
    simp [List.filter, h0, h1, hd, half_lt_self hd]
  have hsort : sortByFrame (fun k => k.frame) [k0, k1] = [k0, k1] := by
    simp only [sortByFrame, insertLe, h0, h1]
    rw [if_neg (by linarith)]
  have htr : (SplatAnimTrack.rebuildSplines d s
      ⟨[k0, k1], none⟩).onTimelineChange
      = some ⟨CubicSpline.fromPointsLooping d [k0.frame, k1.frame]
          [k0.position.x, k0.position.y, k0.position.z,
           k1.position.x, k1.position.y, k1.position.z] s,
        CubicSpline.fromPointsLooping d [k0.frame, k1.frame]
          [k0.scale.x, k0.scale.y, k0.scale.z,
           k1.scale.x, k1.scale.y, k1.scale.z] s,
        [k0, k1], d⟩ := by
    simp only [SplatAnimTrack.rebuildSplines, hfilter, hsort]
    rw [if_neg (by norm_num)]
    rfl
  refine ⟨?_, ?_, ?_⟩
  · rw [evaluate_rotation se sl _ 0 htr, bracketKeys_pair]
    rw [if_neg (by rw [h0]; exact lt_irrefl 0), if_pos (by rw [h1]; exact hhalf)]
    simp only [Option.map_some', h0, h1, Option.some.injEq]
    rw [if_neg (lt_irrefl (0 : ℚ))]
    norm_num
    exact hs0 k0.rotation k1.rotation
  · rw [evaluate_rotation se sl _ (d / 2) htr, bracketKeys_pair]
    rw [if_neg (by rw [h0]; exact not_lt.mpr hhalf.le),
        if_neg (by rw [h1]; exact lt_irrefl _)]
    simp only [Option.map_some', h0, h1, Option.some.injEq]
    rw [if_neg (lt_irrefl (d / 2))]
    norm_num
    exact hs0 k1.rotation k0.rotation
  · rw [evaluate_rotation se sl _ (3 * d / 4) htr, bracketKeys_pair]
    rw [if_neg (by rw [h0]; exact not_lt.mpr (by linarith)),
        if_neg (by rw [h1]; exact not_lt.mpr (by linarith))]
    simp only [Option.map_some', h0, h1, Option.some.injEq]
    rw [if_neg (by push_neg; linarith), if_pos (by linarith)]
    have hfac : (3 * d / 4 - d / 2) / (0 + d - d / 2) = 1 / 2 := by
      rw [div_eq_iff (by linarith)]
      ring
    rw [hfac]
    norm_num

/-- C5 witness: concrete instantiation at `d = 4`, keys at frames 0 and
2 with distinct rotations, using a sampler returning 0 and an
interpolator satisfying the endpoint law. -/
theorem transform_two_key_rotation_slerp_witness :
    ((SplatAnimTrack.evaluate zeroEval stepSlerp
        (SplatAnimTrack.rebuildSplines 4 1
          ⟨[⟨0, zeroV, ⟨0, 0, 0, 1⟩, ⟨1, 1, 1⟩⟩,
            ⟨2, zeroV, ⟨1, 0, 0, 0⟩, ⟨1, 1, 1⟩⟩], none⟩) 0).2.2.map
          SplatMove.rotation = some ⟨0, 0, 0, 1⟩)
    ∧ ((SplatAnimTrack.evaluate zeroEval stepSlerp
        (SplatAnimTrack.rebuildSplines 4 1
          ⟨[⟨0, zeroV, ⟨0, 0, 0, 1⟩, ⟨1, 1, 1⟩⟩,
            ⟨2, zeroV, ⟨1, 0, 0, 0⟩, ⟨1, 1, 1⟩⟩], none⟩) (4 / 2)).2.2.map
          SplatMove.rotation = some ⟨1, 0, 0, 0⟩)
    ∧ ((SplatAnimTrack.evaluate zeroEval stepSlerp
        (SplatAnimTrack.rebuildSplines 4 1
          ⟨[⟨0, zeroV, ⟨0, 0, 0, 1⟩, ⟨1, 1, 1⟩⟩,
            ⟨2, zeroV, ⟨1, 0, 0, 0⟩, ⟨1, 1, 1⟩⟩], none⟩) (3 * 4 / 4)).2.2.map
          SplatMove.rotation
        = some (stepSlerp ⟨1, 0, 0, 0⟩ ⟨0, 0, 0, 1⟩ (1 / 2))) := by
  have h := transform_two_key_rotation_slerp zeroEval stepSlerp
    (fun a b => by simp [stepSlerp]) 4 1 (by norm_num)
    ⟨0, zeroV, ⟨0, 0, 0, 1⟩, ⟨1, 1, 1⟩⟩ ⟨2, zeroV, ⟨1, 0, 0, 0⟩, ⟨1, 1, 1⟩⟩
    rfl (by norm_num) (by decide)
  exact h

end SuperSplat
